import Mathlib

/-!
Verification of the tempo detection-and-trade pipeline.

This file gives a shallow embedding, in Lean 4, of the core of the
repository: the Midgard poller's dedup loop, the stream-swap classifier
and detector, the threshold validation, the Kraken depth-walk trade
planner, and the timed trade-lifecycle manager, and proves or refutes
the spec's claims about them.

Numeric conventions of the embedding:
* TypeScript `number` values that take part in exact comparisons and
  arithmetic (prices, quantities, thresholds, durations) are embedded as
  rationals (`ℚ`); every operation the verified code paths perform on
  them (+, -, *, /, min, max, comparisons) is exact on the inputs at
  stake, so `ℚ` agrees with IEEE doubles there.
* Where the code can produce or must guard against the JavaScript
  non-finite values `NaN`/`Infinity` (the USD sizing helpers, the
  parseInt/parseFloat duration fields), numbers are embedded as `JSNum`,
  a ℚ carrier extended with `nan`, `inf`, `ninf`, with the JavaScript
  semantics of `*`, `<=`, `Math.max`, `isFinite`.
* Transaction ids are opaque strings compared only for equality; in the
  poller model they are embedded as `Nat` (any type with decidable
  equality is faithful for a membership-only use).
-/

/-! ## JavaScript number model (`JSNum`) -/

/-- A JavaScript `number` restricted to the values the verified code can
produce: a finite rational, `NaN`, `Infinity` or `-Infinity`.  (Finite
IEEE rounding is immaterial to the claims handled with `JSNum`; only the
non-finite propagation is.) -/
inductive JSNum where
  | nan
  | inf
  | ninf
  | fin (q : ℚ)
deriving DecidableEq

/-- JavaScript `isFinite`. -/
def JSNum.isFinite : JSNum → Bool
  | fin _ => true
  | _ => false

/-- JavaScript multiplication: `NaN` absorbs, `Infinity * 0 = NaN`,
signs multiply, finite times finite is exact. -/
def JSNum.mul : JSNum → JSNum → JSNum
  | nan, _ => nan
  | _, nan => nan
  | fin p, fin q => fin (p * q)
  | inf, inf => inf
  | inf, ninf => ninf
  | ninf, inf => ninf
  | ninf, ninf => inf
  | inf, fin q => if q = 0 then nan else if 0 < q then inf else ninf
  | fin q, inf => if q = 0 then nan else if 0 < q then inf else ninf
  | ninf, fin q => if q = 0 then nan else if 0 < q then ninf else inf
  | fin q, ninf => if q = 0 then nan else if 0 < q then ninf else inf

/-- JavaScript `<=`: any comparison with `NaN` is false. -/
def JSNum.jsle : JSNum → JSNum → Bool
  | nan, _ => false
  | _, nan => false
  | ninf, _ => true
  | inf, inf => true
  | inf, _ => false
  | fin _, inf => true
  | fin _, ninf => false
  | fin p, fin q => p ≤ q

/-- JavaScript `<`: any comparison with `NaN` is false. -/
def JSNum.jslt : JSNum → JSNum → Bool
  | nan, _ => false
  | _, nan => false
  | ninf, ninf => false
  | ninf, _ => true
  | inf, _ => false
  | fin _, inf => true
  | fin _, ninf => false
  | fin p, fin q => p < q

/-- JavaScript `Math.max`: returns `NaN` if either argument is `NaN`. -/
def JSNum.jmax : JSNum → JSNum → JSNum
  | nan, _ => nan
  | _, nan => nan
  | inf, _ => inf
  | _, inf => inf
  | ninf, b => b
  | a, ninf => a
  | fin p, fin q => fin (max p q)

/-- Division by a positive finite constant (the code only divides by the
base-unit scale `100000000`): preserves `NaN` and the infinities. -/
def JSNum.divPos (a : JSNum) (d : ℚ) : JSNum :=
  match a with
  | nan => nan
  | inf => inf
  | ninf => ninf
  | fin q => fin (q / d)

/-- Digit-string to `Nat`: `some` iff every character is a decimal digit
and the string is non-empty. -/
def digitsToNat? (cs : List Char) : Option Nat :=
  if cs.isEmpty then none
  else cs.foldl (fun acc c =>
    acc.bind (fun n => if c.isDigit then some (n * 10 + (c.toNat - 48)) else none)) (some 0)

/-- JavaScript `parseFloat` on the decimal forms the Midgard/THORNode
APIs transmit: an unsigned digit string, optionally `digits.digits`.
Any other form (empty, non-digit characters) parses to `NaN`, as
`parseFloat` does on them. -/
def parseFloatJS (s : String) : JSNum :=
  let intPart := s.data.takeWhile (fun c => c != '.')
  let rest := s.data.dropWhile (fun c => c != '.')
  match rest with
  | [] =>
    match digitsToNat? intPart with
    | some n => .fin (n : ℚ)
    | none => .nan
  | _ :: fracPart =>
    match digitsToNat? intPart, digitsToNat? fracPart with
    | some n, some f => .fin ((n : ℚ) + (f : ℚ) / ((10 : ℚ) ^ fracPart.length))
    | _, _ => .nan

/-- JavaScript `parseInt` on the unsigned decimal-digit strings the APIs
transmit; any other form parses to `NaN`. -/
def parseIntJS (s : String) : JSNum :=
  match digitsToNat? s.data with
  | some n => .fin (n : ℚ)
  | none => .nan

/-! ## Data model (src/src/modules/thorchain/interfaces/thorchain.interface.ts) -/

/-- A coin transfer entry: asset identifier and amount (a decimal string
of base units). -/
structure MidgardCoin where
  asset : String
  amount : String
deriving DecidableEq

/-- One inbound/outbound transfer of an action.  (Source field `txID`;
further fields unused by the verified operations.) -/
structure MidgardTx where
  address : String
  coins : List MidgardCoin
  txID : String
deriving DecidableEq

/-- `metadata.swap.streamingSwapMeta`: the streaming parameters, all
transmitted as decimal strings.  The coin sub-objects and
`outEstimation` are accessed with optional chaining (`?.`) throughout
the code, so they are embedded as `Option`. -/
structure StreamingSwapMeta where
  count : String
  interval : String
  quantity : String
  lastHeight : String
  depositedCoin : Option MidgardCoin
  inCoin : Option MidgardCoin
  outCoin : Option MidgardCoin
  outEstimation : Option String
deriving DecidableEq

/-- `metadata.swap`: the swap metadata fields the verified code reads. -/
structure SwapMetadata where
  inPriceUSD : String
  outPriceUSD : String
  isStreamingSwap : Bool
  streamingSwapMeta : Option StreamingSwapMeta
deriving DecidableEq

/-- `metadata` of an action. -/
structure ActionMetadata where
  swap : Option SwapMetadata
deriving DecidableEq

/-- One raw ledger action as returned by Midgard.  The source's `in`
field is named `inTxs` (`in` is reserved in Lean); `pools?: string[]`
is embedded as a plain list — an absent array and `[]` behave
identically in every code path (`?? []`, truthiness, `.length`). -/
structure MidgardAction where
  type : String
  status : String
  inTxs : List MidgardTx
  out : List MidgardTx
  metadata : Option ActionMetadata
  pools : List String
  date : String
  height : String
deriving DecidableEq

/-- `TradeDirection` (src/src/modules/thorchain/interfaces/trade.interface.ts). -/
inductive TradeDirection where
  | long
  | short
deriving DecidableEq

/-- An order side on the venue. -/
inductive Side where
  | buy
  | sell
deriving DecidableEq

/-! ## Swap classification (src/src/modules/thorchain/services/midgard.service.ts,
current version, lines 296–363) -/

/-- The streaming flag `action.metadata?.swap?.isStreamingSwap === true`. -/
def streamingFlag (action : MidgardAction) : Bool :=
  ((action.metadata.bind (·.swap)).map (·.isStreamingSwap)).getD false

/-- `MidgardService.isStreamSwap` (current version, midgard.service.ts
l.296–301): `type === 'swap'` and the streaming flag is `true`.  Note:
this version does **not** require `streamingSwapMeta` to be present. -/
def isStreamSwap (action : MidgardAction) : Bool :=
  action.type == "swap" && streamingFlag action

/-- An inferred swap direction (source object `{from, to}`; `from` is
reserved in Lean). -/
structure SwapDir where
  fromAsset : String
  toAsset : String
deriving DecidableEq

/-- The output-scan loop of `getSwapDirection` (midgard.service.ts
l.316–326): first out entry with a non-empty coin list whose first coin
is not an affiliate fee (same asset as the input coin). -/
def findOutCoin (outs : List MidgardTx) (inCoin : Option MidgardCoin) : Option MidgardCoin :=
  match outs with
  | [] => none
  | tx :: rest =>
    match tx.coins with
    | [] => findOutCoin rest inCoin
    | c :: _ =>
      if (match inCoin with
          | some ic => c.asset != ic.asset
          | none => true) then some c
      else findOutCoin rest inCoin

/-- `MidgardService.getSwapDirection` (current version, midgard.service.ts
l.307–363): in/out coins first, then the pool pair, then the streaming
metadata's coins, else `null`. -/
def getSwapDirection (action : MidgardAction) : Option SwapDir :=
  let step1 : Option SwapDir :=
    if action.inTxs.length > 0 && action.out.length > 0 then
      let inCoin := action.inTxs.head?.bind (fun tx => tx.coins.head?)
      let outCoin := findOutCoin action.out inCoin
      match inCoin, outCoin with
      | some ic, some oc => some ⟨ic.asset, oc.asset⟩
      | _, _ => none
    else none
  match step1 with
  | some d => some d
  | none =>
    match action.pools with
    | p0 :: p1 :: _ => some ⟨p0, p1⟩
    | _ =>
      match (action.metadata.bind (·.swap)).bind (·.streamingSwapMeta) with
      | some meta =>
        match meta.inCoin, meta.outCoin with
        | some ic, some oc => some ⟨ic.asset, oc.asset⟩
        | _, _ => none
      | none => none

/-! Spec-side formulations of the three direction fallbacks (spec §4.2),
used to compare `getSwapDirection` against the claimed chain. -/

/-- Fallback 1 as the spec words it: the first input coin versus the
first non-empty, non-affiliate-fee output coin. -/
def inOutDirection (action : MidgardAction) : Option SwapDir :=
  (action.inTxs.head?.bind (fun tx => tx.coins.head?)).bind (fun ic =>
    (action.out.findSome? (fun tx =>
      tx.coins.head?.bind (fun c => if c.asset != ic.asset then some c else none))).map
      (fun oc => ⟨ic.asset, oc.asset⟩))

/-- Fallback 2 as the spec words it: pool 0 is the source, pool 1 the
destination. -/
def poolsDirection (action : MidgardAction) : Option SwapDir :=
  match action.pools with
  | p0 :: p1 :: _ => some ⟨p0, p1⟩
  | _ => none

/-- Fallback 3 as the spec words it: the streaming metadata's recorded
input/output coin assets. -/
def metaDirection (action : MidgardAction) : Option SwapDir :=
  match (action.metadata.bind (·.swap)).bind (·.streamingSwapMeta) with
  | some meta =>
    match meta.inCoin, meta.outCoin with
    | some ic, some oc => some ⟨ic.asset, oc.asset⟩
    | _, _ => none
  | none => none

/-! ## USD sizing (src/unnamed/part_004, current format.utils) -/

/-- `formatAmount` (part_004 l.40–42): `parseFloat(amount) / 1e8`. -/
def formatAmount (amount : String) : JSNum :=
  (parseFloatJS amount).divPos 100000000

/-- THORNode status coin (interfaces; only the fields the sizing reads). -/
structure ThornodeCoin where
  asset : String
  amount : String
deriving DecidableEq

/-- `ThornodeTxStatus.tx` payload. -/
structure ThornodeTx where
  coins : List ThornodeCoin
deriving DecidableEq

/-- THORNode per-transaction status lookup result. -/
structure ThornodeTxStatus where
  tx : Option ThornodeTx
deriving DecidableEq

/-- `calculateSizeFromThornodeTx` (part_004 l.50–68): first input coin
amount times the reference price, degraded to 0 when an input is
non-finite or non-positive and when the product is non-finite. -/
def calculateSizeFromThornodeTx (txStatus : ThornodeTxStatus) (assetPriceUSD : JSNum) : JSNum :=
  match txStatus.tx with
  | none => .fin 0
  | some tx =>
    match tx.coins with
    | [] => .fin 0
    | coin :: _ =>
      let amount := formatAmount coin.amount
      if !amount.isFinite || !assetPriceUSD.isFinite
          || amount.jsle (.fin 0) || assetPriceUSD.jsle (.fin 0) then .fin 0
      else
        let sizeUSD := amount.mul assetPriceUSD
        if sizeUSD.isFinite then sizeUSD else .fin 0

/-- `getStreamSwapSizeInUSD` (part_004 l.74–86, the metadata fallback):
`max(depositedAmount × inPriceUSD, outEstimation × outPriceUSD)` with
`'0'` defaults for absent fields.  The `try/catch` of the source is not
modelled: no expression in the body can throw. -/
def getStreamSwapSizeInUSD (action : MidgardAction) : JSNum :=
  let swap := action.metadata.bind (·.swap)
  let inPriceUSD := (swap.map (·.inPriceUSD)).getD "0"
  let outPriceUSD := (swap.map (·.outPriceUSD)).getD "0"
  let meta := swap.bind (·.streamingSwapMeta)
  let inAmount := formatAmount (((meta.bind (·.depositedCoin)).map (·.amount)).getD "0")
  let outAmount := formatAmount ((meta.bind (·.outEstimation)).getD "0")
  JSNum.jmax (inAmount.mul (parseFloatJS inPriceUSD)) (outAmount.mul (parseFloatJS outPriceUSD))

/-! ## Detector (src/src/modules/thorchain/services/thornode.service.ts,
current DetectorService) -/

/-- The tracked asset (src/src/common/constants/thorchain.constants.ts). -/
def RUJI_TOKEN : String := "THOR.RUJI"

/-- `estimatedDurationSeconds` as the current detector computes it
(thornode.service.ts l.141–146): parse `count`, `interval`, `quantity`
with `'1'` defaults when the metadata is absent, then
`quantity * interval * 6`. -/
def estimatedDurationSeconds (streamingMeta : Option StreamingSwapMeta) : JSNum :=
  let count := parseIntJS ((streamingMeta.map (·.count)).getD "1")
  let interval := parseIntJS ((streamingMeta.map (·.interval)).getD "1")
  let quantity := parseIntJS ((streamingMeta.map (·.quantity)).getD "1")
  let _ := count
  (quantity.mul interval).mul (.fin 6)

/-- Modelled from the spec: `MidgardService.getSwapAssets` is called by
the current detector (thornode.service.ts l.133) but its body is not in
the repository.  Per spec §4.2 it resolves the swap's from/to assets by
the three-step fallback chain — which is `getSwapDirection`, present in
the repository — and fixes the trade direction relative to the tracked
asset (`long` = counter-asset → tracked asset, else `short`); an
unresolvable direction drops the action. -/
def getSwapAssets (action : MidgardAction) : Option (String × String × TradeDirection) :=
  (getSwapDirection action).map (fun d =>
    (d.fromAsset, d.toAsset,
      if d.toAsset = RUJI_TOKEN then TradeDirection.long else TradeDirection.short))

/-- Whether `DetectorService.handleStreamSwap` (thornode.service.ts
l.123–181) reaches its `streamswap.detected` emission for an action: the
asset/direction resolution must succeed; a missing `streamingSwapMeta`
only logs a warning and continues with `'1'` defaults, and the sizing
helpers are total, so no other step can abort. -/
def handleStreamSwapEmits (action : MidgardAction) : Bool :=
  (getSwapAssets action).isSome

/-- Whether `DetectorService.handleActionDetected` (thornode.service.ts
l.97–118) leads to a `streamswap.detected` emission: gate on
`isStreamSwap`, then run `handleStreamSwap`. -/
def handleActionDetected (action : MidgardAction) : Bool :=
  if isStreamSwap action then handleStreamSwapEmits action else false

/-! ## Opportunity and threshold validation -/

/-- `streamingConfig` of an opportunity (parsed numbers). -/
structure StreamingConfig where
  count : ℚ
  quantity : ℚ
  interval : ℚ
deriving DecidableEq

/-- `StreamSwapOpportunity` (current interface): the detector's derived
value.  `$size` is named `sizeUSD` (`$` is not a Lean identifier
character). -/
structure StreamSwapOpportunity where
  txHash : String
  inputAsset : String
  outputAsset : String
  inputAmount : String
  outputAmount : String
  sizeUSD : ℚ
  tradeDirection : TradeDirection
  streamingConfig : StreamingConfig
  estimatedDurationSeconds : ℚ
  pools : List String
  height : String
  status : String
  address : String
deriving DecidableEq

/-- `DetectorService.handleStreamSwapDetected` (thornode.service.ts
l.208–247), over JavaScript numbers.  The parameters are the fields the
source destructures from the opportunity — `status`, `$size`,
`estimatedDurationSeconds` — and the two thresholds read from the
trade-config service at the point of use (plain finite numbers).
`$size` and the duration are JS numbers and can be `NaN`: the size when
the THORNode lookup fails and the metadata sizing fallback propagates a
non-finite value, the duration when a streaming field does not parse.
Returns whether `validopportunity.detected` is emitted: the opportunity
is dropped when the status is not `pending` or a JS `<` threshold
comparison fires, and forwarded otherwise. -/
def handleStreamSwapDetected (status : String)
    (sizeUSD estimatedDurationSeconds : JSNum) (minSize minDuration : ℚ) : Bool :=
  if status ≠ "pending" then false
  else if sizeUSD.jslt (.fin minSize) then false
  else if estimatedDurationSeconds.jslt (.fin minDuration) then false
  else true

/-! ## Trade configuration constants
(src/src/common/constants/tradeConfig.constants.ts) -/

namespace TRADE_CONFIG_CONSTANTS

/-- `MIN_OPPORTUNITY_SIZE_$` (USD). -/
def MIN_OPPORTUNITY_SIZE_USD : ℚ := 4000

/-- `MIN_OPPORTUNITY_DURATION_S`. -/
def MIN_OPPORTUNITY_DURATION_S : ℚ := 30

/-- `TADE_SIZE_$` (USD, the source's spelling). -/
def TADE_SIZE_USD : ℚ := 5

/-- `MAX_SLIPPAGE_PCT`. -/
def MAX_SLIPPAGE_PCT : ℚ := 5

/-- `EXIT_BUFFER_SECONDS`: exit this many seconds before the stream swap
ends. -/
def EXIT_BUFFER_SECONDS : ℚ := 10

end TRADE_CONFIG_CONSTANTS

/-! ## Kraken depth walk (src/unnamed/part_021, `KrakenTradeService`) -/

/-- One price level of the order book; the source's `[price, volume]`
string pair, embedded by its parsed values. -/
structure BookLevel where
  price : ℚ
  volume : ℚ
deriving DecidableEq

/-- An order-book snapshot. -/
structure OrderBook where
  bids : List BookLevel
  asks : List BookLevel
deriving DecidableEq

/-- `SimulatedTradeResult` (part_021 l.11–18). -/
structure SimulatedTradeResult where
  executed : Bool
  side : Side
  avgPrice : ℚ
  filledQty : ℚ
  totalCost : ℚ
  slippagePct : ℚ
deriving DecidableEq

/-- The level-walking loop of `simulateMarketTrade` (part_021 l.87–97),
carried state `(remaining, totalCost, weightedPrice, filled)`; the
`remaining <= 0` break is checked at the top of each iteration. -/
def walkBook : List BookLevel → ℚ × ℚ × ℚ × ℚ → ℚ × ℚ × ℚ × ℚ
  | [], st => st
  | l :: rest, (remaining, totalCost, weightedPrice, filled) =>
    if remaining ≤ 0 then (remaining, totalCost, weightedPrice, filled)
    else
      let tradeVol := min l.volume remaining
      walkBook rest (remaining - tradeVol, totalCost + tradeVol * l.price,
        weightedPrice + tradeVol * l.price, filled + tradeVol)

/-- `KrakenTradeService.simulateMarketTrade` (part_021 l.80–115): walk
the asks (buy) or bids (sell); if nothing filled, return a
non-executed result, otherwise the volume-weighted fill and the signed
slippage percentage against the best level. -/
def simulateMarketTrade (book : OrderBook) (side : Side) (qty : ℚ) : SimulatedTradeResult :=
  let levels := match side with | .buy => book.asks | .sell => book.bids
  let r := walkBook levels (qty, 0, 0, 0)
  let filled := r.2.2.2
  let totalCost := r.2.1
  let weightedPrice := r.2.2.1
  if filled = 0 then
    { executed := false, side := side, avgPrice := 0, filledQty := 0,
      totalCost := 0, slippagePct := 0 }
  else
    let avgPrice := weightedPrice / filled
    let bestLevel := ((levels.head?.map (·.price)).getD 0)
    let slippagePct := ((avgPrice - bestLevel) / bestLevel) * 100 *
      (match side with | .buy => 1 | .sell => -1)
    { executed := true, side := side, avgPrice := avgPrice, filledQty := filled,
      totalCost := totalCost, slippagePct := slippagePct }

/-- `KrakenOrderResult` (part_021 l.20–31): the live-venue order result;
`price`/`avgPrice` etc. are optional **string** fields. -/
structure KrakenOrderResult where
  orderId : String
  status : String
  description : String
  volume : String
  price : Option String
  avgPrice : Option String
  filled : Option String
  remaining : Option String
  cost : Option String
  fee : Option String
deriving DecidableEq

/-- What `placeMarketOrder` resolves to: a live venue result in live
mode, a depth-walk simulation in dry-run mode (part_021 l.132–184). -/
inductive PlaceOrderResult where
  | kraken (r : KrakenOrderResult)
  | simulated (r : SimulatedTradeResult)
deriving DecidableEq

/-- The object literal the live branch of `placeMarketOrder` returns
(part_021 l.174–179): only `orderId`, `status`, `description`, `volume`
are set — in particular no `avgPrice` property. -/
def liveOrderResult (orderId status description volume : String) : KrakenOrderResult :=
  { orderId := orderId, status := status, description := description,
    volume := volume, price := none, avgPrice := none, filled := none,
    remaining := none, cost := none, fee := none }

/-! ## Trade records (src/unnamed trade.interface / part_020) -/

/-- `KrakenTradeDetails`: one recorded order leg. -/
structure KrakenTradeDetails where
  orderId : String
  side : Side
  qty : ℚ
  price : ℚ
  status : String
deriving DecidableEq

/-- `TradeExecution`: the per-trade accounting record. -/
structure TradeExecution where
  tradeId : String
  entryOrder : KrakenTradeDetails
  exitOrder : Option KrakenTradeDetails
  pnl : Option ℚ
  status : String
deriving DecidableEq

/-! ## Trade planner (src/src/modules/trade/services/tradePlanner.service.ts) -/

/-- `TradePlannerService.determineKrakenSide`: same logical direction as
the detected swap. -/
def determineKrakenSide (tradeDirection : TradeDirection) : Side :=
  match tradeDirection with
  | .long => .buy
  | .short => .sell

/-- Outcome of the planner's entry decision. -/
inductive PlanDecision where
  | insufficientLiquidity
  | excessSlippage
  | submitted (order : KrakenTradeDetails)
deriving DecidableEq

/-- The decision core of
`TradePlannerService.handleValidOpportunityDetected` (tradePlanner
l.27–85): simulate the fill against the book, reject when the
simulation did not execute (`Insufficient liquidity`), reject when
`|slippagePct|` exceeds the maximum, otherwise submit the entry order
for the full requested quantity at the simulated average price.  The
book snapshot and the computed trade quantity (awaited network values in
the source) are parameters. -/
def handleValidOpportunityDetected (opportunity : StreamSwapOpportunity)
    (orderbook : OrderBook) (tradeQty : ℚ) : PlanDecision :=
  let krakenSide := determineKrakenSide opportunity.tradeDirection
  let simulation := simulateMarketTrade orderbook krakenSide tradeQty
  if simulation.executed = false then .insufficientLiquidity
  else if |simulation.slippagePct| > TRADE_CONFIG_CONSTANTS.MAX_SLIPPAGE_PCT then
    .excessSlippage
  else .submitted
    { orderId := "entry", side := krakenSide, qty := tradeQty,
      price := simulation.avgPrice, status := "executed" }

/-! ## Trade lifecycle (src/unnamed/part_020, `TradeLifecycleService`) -/

/-- One entry of the `activeTrades` map: the scheduled timer (abstracted
by its delay), the opportunity, entry order, and execution record. -/
structure ActiveTrade where
  timerDelayMs : ℚ
  opportunity : StreamSwapOpportunity
  entryOrder : KrakenTradeDetails
  execution : TradeExecution
deriving DecidableEq

/-- JavaScript `Map.set` on an insertion-ordered association list:
replace in place if the key exists, else append. -/
def alistSet (m : List (String × ActiveTrade)) (k : String) (v : ActiveTrade) :
    List (String × ActiveTrade) :=
  if m.any (fun p => p.1 == k) then
    m.map (fun p => if p.1 == k then (k, v) else p)
  else m ++ [(k, v)]

/-- JavaScript `Map.get`. -/
def alistGet (m : List (String × ActiveTrade)) (k : String) : Option ActiveTrade :=
  (m.find? (fun p => p.1 == k)).map (·.2)

/-- The result of `scheduleExit`: the updated `activeTrades` map, the
created timer's delay (if one was created), and the
`trade.exit.scheduled` event payload `(tradeId, duration)` (if
emitted). -/
structure ScheduleExitResult where
  activeTrades : List (String × ActiveTrade)
  timer : Option ℚ
  event : Option (String × ℚ)
deriving DecidableEq

/-- The `ActiveTrade` record `scheduleExit` stores for a scheduled
trade. -/
def mkActiveTrade (opportunity : StreamSwapOpportunity)
    (entryOrder : KrakenTradeDetails) : ActiveTrade :=
  let exitDelayMs := (opportunity.estimatedDurationSeconds -
    TRADE_CONFIG_CONSTANTS.EXIT_BUFFER_SECONDS) * 1000
  { timerDelayMs := exitDelayMs
    opportunity := opportunity
    entryOrder := entryOrder
    execution := { tradeId := opportunity.txHash, entryOrder := entryOrder,
                   exitOrder := none, pnl := none, status := "active" } }

/-- `TradeLifecycleService.scheduleExit` (part_020 l.28–73): compute
`exitDelayMs = (estimatedDurationSeconds − EXIT_BUFFER_SECONDS) * 1000`;
if non-positive, abandon (no timer, no map entry, no event); otherwise
create the exit timer with that delay, store the active trade under the
opportunity's tx hash, and emit `trade.exit.scheduled`. -/
def scheduleExit (opportunity : StreamSwapOpportunity)
    (entryOrder : KrakenTradeDetails)
    (activeTrades : List (String × ActiveTrade)) : ScheduleExitResult :=
  let tradeId := opportunity.txHash
  let exitDelayMs := (opportunity.estimatedDurationSeconds -
    TRADE_CONFIG_CONSTANTS.EXIT_BUFFER_SECONDS) * 1000
  if exitDelayMs ≤ 0 then
    { activeTrades := activeTrades, timer := none, event := none }
  else
    { activeTrades := alistSet activeTrades tradeId (mkActiveTrade opportunity entryOrder),
      timer := some exitDelayMs,
      event := some (tradeId, opportunity.estimatedDurationSeconds) }

/-- `TradeLifecycleService.calculatePnL` (part_020 l.147–159). -/
def calculatePnL (entryOrder exitOrder : KrakenTradeDetails) : ℚ :=
  let qty := entryOrder.qty
  let entryPrice := entryOrder.price
  let exitPrice := exitOrder.price
  match entryOrder.side with
  | .buy => (exitPrice - entryPrice) * qty
  | .sell => (entryPrice - exitPrice) * qty

/-- The exit-price selection of `TradeLifecycleService.executeExit`
(part_020 l.105): `'avgPrice' in exitResult ? (typeof
exitResult.avgPrice === 'number' ? exitResult.avgPrice :
entryOrder.price) : entryOrder.price`.  A live `KrakenOrderResult`
either lacks `avgPrice` or holds a string there, so both of its branches
fall back to the entry price; a simulated result's `avgPrice` is a
number. -/
def exitOrderPrice (entryOrder : KrakenTradeDetails) (exitResult : PlaceOrderResult) : ℚ :=
  match exitResult with
  | .simulated s => s.avgPrice
  | .kraken k =>
    match k.avgPrice with
    | some _ => entryOrder.price
    | none => entryOrder.price

/-- The exit-order record `executeExit` constructs (part_020
l.101–108). -/
def mkExitOrder (entryOrder : KrakenTradeDetails) (exitResult : PlaceOrderResult) :
    KrakenTradeDetails :=
  { orderId := (match exitResult with
      | .kraken k => k.orderId
      | .simulated _ => "sim_exit"),
    side := (match entryOrder.side with | .buy => .sell | .sell => .buy),
    qty := entryOrder.qty,
    price := exitOrderPrice entryOrder exitResult,
    status := "executed" }

/-! ## Poller (src/src/modules/thorchain/services/poller.service.ts) -/

/-- One fetched action as the poll loop reads it: `parseInt(height)` and
`in[0]?.txID` (ids embedded as `Nat`, see the header). -/
structure PollAction where
  height : Nat
  txId : Option Nat
deriving DecidableEq

/-- The poller's mutable state: the insertion-ordered set of processed
tx ids and the last processed height. -/
structure PollerState where
  processedTxIds : List Nat
  lastProcessedHeight : Nat
deriving DecidableEq

/-- `maxProcessedTxIds` (poller.service.ts l.19): capacity of the dedup
window. -/
def maxProcessedTxIds : Nat := 1000

/-- One iteration of the poll loop (poller.service.ts l.85–120), carried
state `(poller state, emitted tx ids)`: skip actions with no tx id, skip
already-processed ids, otherwise emit `action.detected`, record the id,
and track the maximum height seen. -/
def pollStep (acc : PollerState × List Nat) (action : PollAction) : PollerState × List Nat :=
  match action.txId with
  | none => acc
  | some txId =>
    if txId ∈ acc.1.processedTxIds then acc
    else
      ({ processedTxIds := acc.1.processedTxIds ++ [txId],
         lastProcessedHeight := max acc.1.lastProcessedHeight action.height },
       acc.2 ++ [txId])

/-- The memory-bloat trim (poller.service.ts l.126–131):
`Array.from(set).slice(-maxProcessedTxIds)` keeps only the most recent
`maxProcessedTxIds` ids. -/
def trimProcessed (l : List Nat) : List Nat :=
  if l.length > maxProcessedTxIds then l.drop (l.length - maxProcessedTxIds) else l

/-- `PollerService.poll` (poller.service.ts l.65–135) on one fetched
batch: sort ascending by height (stable, as the runtime's sort), run the
loop, then trim the dedup window.  Returns the new state and the ids
emitted as `action.detected`, in order. -/
def poll (s : PollerState) (actions : List PollAction) : PollerState × List Nat :=
  let sortedActions := actions.mergeSort (fun a b => a.height ≤ b.height)
  let r := sortedActions.foldl pollStep (s, [])
  ({ processedTxIds := trimProcessed r.1.processedTxIds,
     lastProcessedHeight := r.1.lastProcessedHeight }, r.2)

/-! ## Concrete instances used by the witnesses and counterexamples -/

/-- A batch of fetched actions at one height, one per tx id. -/
def batchOf (ids : List Nat) (h : Nat) : List PollAction :=
  ids.map (fun i => ⟨h, some i⟩)

/-- The poller's initial state: empty dedup window, height 0. -/
def c1State0 : PollerState := ⟨[], 0⟩

/-- A poll batch of 1001 distinct fresh tx ids (one more than the dedup
window's capacity) at height 1. -/
def c1Batch1 : List PollAction := batchOf (List.range 1001) 1

/-- A later poll batch returning tx id 0 again (the ledger index returns
settling transactions repeatedly). -/
def c1Batch2 : List PollAction := batchOf [0] 2

/-- Streaming metadata with `count = "10"`, `interval = "1"`,
`quantity = "5"` (the spec's own duration scenario). -/
def c2Meta : StreamingSwapMeta :=
  { count := "10"
    interval := "1"
    quantity := "5"
    lastHeight := "0"
    depositedCoin := none
    inCoin := none
    outCoin := none
    outEstimation := none }

/-- A non-swap action (classification must reject on type). -/
def c3NonSwap : MidgardAction :=
  { type := "withdraw"
    status := "pending"
    inTxs := []
    out := []
    metadata := none
    pools := []
    date := "0"
    height := "1" }

/-- Swap metadata with the streaming flag set but **no**
`streamingSwapMeta` structure. -/
def c3Swap : SwapMetadata :=
  { inPriceUSD := "1"
    outPriceUSD := "1"
    isStreamingSwap := true
    streamingSwapMeta := none }

/-- A streaming-flagged swap action whose streaming metadata structure is
missing, with resolvable in/out coins. -/
def c3Action : MidgardAction :=
  { type := "swap"
    status := "pending"
    inTxs := [{ address := "addr1", coins := [{ asset := "THOR.RUNE", amount := "100" }], txID := "TX1" }]
    out := [{ address := "addr2", coins := [{ asset := "THOR.RUJI", amount := "50" }], txID := "TX2" }]
    metadata := some { swap := some c3Swap }
    pools := ["THOR.RUNE", "THOR.RUJI"]
    date := "0"
    height := "1" }

/-- An order book whose only ask level holds volume 1000 at price 1.00. -/
def c4Book : OrderBook := { bids := [], asks := [{ price := 1, volume := 1000 }] }

/-- A validated long opportunity fed to the planner. -/
def c4Opportunity : StreamSwapOpportunity :=
  { txHash := "C4TX"
    inputAsset := "THOR.RUNE"
    outputAsset := "THOR.RUJI"
    inputAmount := "0"
    outputAmount := "0"
    sizeUSD := 5000
    tradeDirection := .long
    streamingConfig := ⟨10, 10, 1⟩
    estimatedDurationSeconds := 60
    pools := []
    height := "1"
    status := "pending"
    address := "addr" }

/-- The entry order the planner submits for the 1500-quantity buy against
`c4Book`. -/
def c4Order : KrakenTradeDetails :=
  { orderId := "entry"
    side := .buy
    qty := 1500
    price := 1
    status := "executed" }

/-- An opportunity with a 15-second estimated duration (exit window
scenario). -/
def w6Opportunity15 : StreamSwapOpportunity :=
  { txHash := "W6"
    inputAsset := "A"
    outputAsset := "B"
    inputAmount := "0"
    outputAmount := "0"
    sizeUSD := 150
    tradeDirection := .long
    streamingConfig := ⟨10, 10, 1⟩
    estimatedDurationSeconds := 15
    pools := []
    height := "1"
    status := "pending"
    address := "w" }

/-- The same opportunity with an 8-second estimated duration. -/
def w6Opportunity8 : StreamSwapOpportunity :=
  { w6Opportunity15 with estimatedDurationSeconds := 8 }

/-- A sample entry order for the lifecycle scenarios. -/
def w6Entry : KrakenTradeDetails :=
  { orderId := "e"
    side := .buy
    qty := 1
    price := 1
    status := "executed" }

/-- Streaming metadata whose deposited-coin amount is a non-numeric
string (`parseFloat` yields `NaN` on it). -/
def c9Meta : StreamingSwapMeta :=
  { count := "2"
    interval := "1"
    quantity := "2"
    lastHeight := "0"
    depositedCoin := some { asset := "THOR.RUJI", amount := "abc" }
    inCoin := none
    outCoin := none
    outEstimation := some "0" }

/-- Swap metadata wrapping `c9Meta` with a positive input price. -/
def c9Swap : SwapMetadata :=
  { inPriceUSD := "1"
    outPriceUSD := "0"
    isStreamingSwap := true
    streamingSwapMeta := some c9Meta }

/-- An action whose metadata sends the fallback USD sizing a `NaN`
amount. -/
def c9Action : MidgardAction :=
  { type := "swap"
    status := "pending"
    inTxs := []
    out := []
    metadata := some { swap := some c9Swap }
    pools := []
    date := "0"
    height := "1" }

/-- An action with empty output transfers and a two-element pool list
(the pool-fallback direction scenario). -/
def c8Action : MidgardAction :=
  { type := "swap"
    status := "pending"
    inTxs := [{ address := "a", coins := [{ asset := "BTC.BTC", amount := "7" }], txID := "TX8" }]
    out := []
    metadata := none
    pools := ["THOR.RUNE", "THOR.RUJI"]
    date := "0"
    height := "1" }

/-! ## Theorems -/

/-- Claim C5 (amended): an opportunity is forwarded to the Trade
Planner (the `validopportunity.detected` event is emitted) iff its
ledger status is `pending` and neither JavaScript `<` threshold
comparison rejects it — not (size < minSize) and not
(duration < minDuration); for finite size and duration this coincides
with the original "at least the threshold" reading, but a `NaN` size or
duration also passes its comparison (`NaN < x` is false) and is
forwarded.  Anything else is dropped with no further emission. -/
theorem handleStreamSwapDetected_spec (status : String)
    (sizeUSD estimatedDurationSeconds : JSNum) (minSize minDuration : ℚ) :
    (handleStreamSwapDetected status sizeUSD estimatedDurationSeconds
        minSize minDuration = true ↔
      (status = "pending" ∧ sizeUSD.jslt (.fin minSize) = false
        ∧ estimatedDurationSeconds.jslt (.fin minDuration) = false))
    ∧ (∀ q d : ℚ,
      handleStreamSwapDetected status (.fin q) (.fin d) minSize minDuration = true ↔
        (status = "pending" ∧ minSize ≤ q ∧ minDuration ≤ d)) := by
  have hgen : ∀ (s2 d2 : JSNum),
      handleStreamSwapDetected status s2 d2 minSize minDuration = true ↔
        (status = "pending" ∧ s2.jslt (.fin minSize) = false
          ∧ d2.jslt (.fin minDuration) = false) := by
    intro s2 d2
    unfold handleStreamSwapDetected
    split_ifs with h1 h2 h3 <;> simp_all
  refine ⟨hgen sizeUSD estimatedDurationSeconds, ?_⟩
  intro q d
  rw [hgen (.fin q) (.fin d)]
  simp [JSNum.jslt, not_lt]

/-- Counterexample to C5 as stated: a `NaN`-sized opportunity — the
value the metadata sizing fallback produces on `c9Action`, which
`getInputAmountAndSizeInUSD` passes into the opportunity whenever the
THORNode lookup fails — is forwarded by the threshold check even though
its size is *not* at least the minimum (`NaN < minSize` is false, so
the rejection never fires, while `minSize <= NaN` is also false). -/
theorem nan_size_forwarded :
    getStreamSwapSizeInUSD c9Action = JSNum.nan
    ∧ handleStreamSwapDetected "pending" (getStreamSwapSizeInUSD c9Action) (JSNum.fin 60)
        TRADE_CONFIG_CONSTANTS.MIN_OPPORTUNITY_SIZE_USD
        TRADE_CONFIG_CONSTANTS.MIN_OPPORTUNITY_DURATION_S = true
    ∧ JSNum.jsle (JSNum.fin TRADE_CONFIG_CONSTANTS.MIN_OPPORTUNITY_SIZE_USD)
        (getStreamSwapSizeInUSD c9Action) = false := by
  have h : getStreamSwapSizeInUSD c9Action = JSNum.nan := by decide
  refine ⟨h, ?_, ?_⟩
  · rw [h]
    norm_num [handleStreamSwapDetected, JSNum.jslt,
      TRADE_CONFIG_CONSTANTS.MIN_OPPORTUNITY_SIZE_USD,
      TRADE_CONFIG_CONSTANTS.MIN_OPPORTUNITY_DURATION_S]
  · rw [h]
    rfl

/-- Looking up a key after a `Map.set` that replaced an existing entry
returns the new value. -/
theorem find?_map_set (m : List (String × ActiveTrade)) (k : String) (v : ActiveTrade)
    (h : m.any (fun p => p.1 == k) = true) :
    (List.find? (fun p => p.1 == k)
      (m.map (fun p => if p.1 == k then (k, v) else p))).map (·.2) = some v := by
  induction m with
  | nil => simp at h
  | cons p rest ih =>
    by_cases hp : p.1 = k
    · simp [List.find?, hp]
    · have hp' : (p.1 == k) = false := by simp [hp]
      have hrest : rest.any (fun p => p.1 == k) = true := by
        simpa [List.any_cons, hp'] using h
      simpa [List.find?, hp'] using ih hrest

/-- Looking up a key after a `Map.set` that appended a fresh entry
returns the new value. -/
theorem find?_append_new (m : List (String × ActiveTrade)) (k : String) (v : ActiveTrade)
    (h : m.any (fun p => p.1 == k) = false) :
    (List.find? (fun p => p.1 == k) (m ++ [(k, v)])).map (·.2) = some v := by
  induction m with
  | nil => simp [List.find?]
  | cons p rest ih =>
    have hp' : (p.1 == k) = false := by
      rcases List.any_eq_false.mp h p (List.mem_cons_self p rest) with hq
      simpa using hq
    have hrest : rest.any (fun p => p.1 == k) = false := by
      refine List.any_eq_false.mpr fun q hq => ?_
      exact List.any_eq_false.mp h q (List.mem_cons_of_mem p hq)
    simpa [List.find?, hp'] using ih hrest

/-- `Map.get` after `Map.set` of the same key returns the stored value. -/
theorem alistGet_alistSet (m : List (String × ActiveTrade)) (k : String) (v : ActiveTrade) :
    alistGet (alistSet m k v) k = some v := by
  unfold alistSet alistGet
  by_cases hany : m.any (fun p => p.1 == k) = true
  · rw [if_pos hany]
    exact find?_map_set m k v hany
  · rw [if_neg hany]
    exact find?_append_new m k v (Bool.not_eq_true _ ▸ hany : _)

/-- Claim C6: the exit delay equals
`(estimatedDurationSeconds − exitBufferSeconds) × 1000` milliseconds; if
that value is non-positive (equivalently, the duration does not exceed
the exit buffer) the trade is abandoned immediately — no exit timer, no
active-trades entry, no `trade.exit.scheduled` event — otherwise exactly
one exit timer with that delay is created, the trade is stored as
active under its tx hash, and the event is emitted. -/
theorem scheduleExit_spec (opportunity : StreamSwapOpportunity)
    (entryOrder : KrakenTradeDetails) (activeTrades : List (String × ActiveTrade)) :
    (opportunity.estimatedDurationSeconds ≤ TRADE_CONFIG_CONSTANTS.EXIT_BUFFER_SECONDS →
      scheduleExit opportunity entryOrder activeTrades =
        { activeTrades := activeTrades, timer := none, event := none })
    ∧ (TRADE_CONFIG_CONSTANTS.EXIT_BUFFER_SECONDS < opportunity.estimatedDurationSeconds →
      (scheduleExit opportunity entryOrder activeTrades).timer =
          some ((opportunity.estimatedDurationSeconds -
            TRADE_CONFIG_CONSTANTS.EXIT_BUFFER_SECONDS) * 1000)
        ∧ alistGet (scheduleExit opportunity entryOrder activeTrades).activeTrades
            opportunity.txHash = some (mkActiveTrade opportunity entryOrder)
        ∧ (scheduleExit opportunity entryOrder activeTrades).event =
            some (opportunity.txHash, opportunity.estimatedDurationSeconds)) := by
  constructor
  · intro h
    have hle : (opportunity.estimatedDurationSeconds -
        TRADE_CONFIG_CONSTANTS.EXIT_BUFFER_SECONDS) * 1000 ≤ 0 := by nlinarith
    unfold scheduleExit
    rw [if_pos hle]
  · intro h
    have hgt : ¬ ((opportunity.estimatedDurationSeconds -
        TRADE_CONFIG_CONSTANTS.EXIT_BUFFER_SECONDS) * 1000 ≤ 0) := by nlinarith
    unfold scheduleExit
    rw [if_neg hgt]
    exact ⟨rfl, alistGet_alistSet _ _ _, rfl⟩

/-- Witness for C6: with a 10-second exit buffer, a 15-second opportunity
gets its exit scheduled after exactly 5000 ms, and an 8-second
opportunity is abandoned with no timer, no stored trade and no event. -/
theorem scheduleExit_spec_witness :
    (scheduleExit w6Opportunity15 w6Entry []).timer = some 5000
    ∧ scheduleExit w6Opportunity8 w6Entry [] =
        { activeTrades := [], timer := none, event := none } := by
  constructor
  · have h := (scheduleExit_spec w6Opportunity15 w6Entry []).2
      (by norm_num [w6Opportunity15, TRADE_CONFIG_CONSTANTS.EXIT_BUFFER_SECONDS])
    rw [h.1]
    norm_num [w6Opportunity15, TRADE_CONFIG_CONSTANTS.EXIT_BUFFER_SECONDS]
  · exact (scheduleExit_spec w6Opportunity8 w6Entry []).1
      (by norm_num [w6Opportunity8, w6Opportunity15, TRADE_CONFIG_CONSTANTS.EXIT_BUFFER_SECONDS])

/-- Claim C7: realized PnL is `(exitPrice − entryPrice) × qty` for a
buy/long entry and `(entryPrice − exitPrice) × qty` for a sell/short
entry; entry 10, exit 12, quantity 5 yields +10 for a long and −10 for a
short. -/
theorem calculatePnL_spec (oid oid2 st st2 : String) (exitSide : Side)
    (qty entryPrice exitPrice qty2 : ℚ) :
    calculatePnL { orderId := oid, side := .buy, qty := qty, price := entryPrice, status := st }
        { orderId := oid2, side := exitSide, qty := qty2, price := exitPrice, status := st2 } =
      (exitPrice - entryPrice) * qty
    ∧ calculatePnL { orderId := oid, side := .sell, qty := qty, price := entryPrice, status := st }
        { orderId := oid2, side := exitSide, qty := qty2, price := exitPrice, status := st2 } =
      (entryPrice - exitPrice) * qty
    ∧ calculatePnL { orderId := "e", side := .buy, qty := 5, price := 10, status := "executed" }
        { orderId := "x", side := .sell, qty := 5, price := 12, status := "executed" } = 10
    ∧ calculatePnL { orderId := "e", side := .sell, qty := 5, price := 10, status := "executed" }
        { orderId := "x", side := .buy, qty := 5, price := 12, status := "executed" } = -10 := by
  refine ⟨rfl, rfl, ?_, ?_⟩ <;> norm_num [calculatePnL]

/-- Claim C10: in live (non-dry-run) exit execution the venue order
result carries no numeric `avgPrice`, so the recorded exit order's price
is the entry order's price, and the computed PnL of the trade is exactly
0; only simulated (dry-run) exit results can carry a numeric average
price and so produce a nonzero PnL. -/
theorem live_exit_pnl_zero (entryOrder : KrakenTradeDetails) (k : KrakenOrderResult) :
    exitOrderPrice entryOrder (.kraken k) = entryOrder.price
    ∧ calculatePnL entryOrder (mkExitOrder entryOrder (.kraken k)) = 0 := by
  have hprice : exitOrderPrice entryOrder (.kraken k) = entryOrder.price := by
    obtain ⟨o, s, d, vol, p, ap, f, r, c, fe⟩ := k
    cases ap <;> rfl
  refine ⟨hprice, ?_⟩
  unfold calculatePnL mkExitOrder
  cases hside : entryOrder.side <;> simp [hprice]

/-- Claim C4 (amended): the planner rejects for insufficient liquidity
exactly when the depth walk fills nothing at all — the simulation's
`executed` flag is false iff the filled quantity is 0, and the planner
returns the insufficient-liquidity rejection iff the simulation did not
execute.  A partial fill short of the requested quantity is not
rejected. -/
theorem plan_rejects_iff_nothing_filled (book : OrderBook) (side : Side) (qty : ℚ)
    (opportunity : StreamSwapOpportunity) (tradeQty : ℚ) :
    ((simulateMarketTrade book side qty).executed = false ↔
      (simulateMarketTrade book side qty).filledQty = 0)
    ∧ (handleValidOpportunityDetected opportunity book tradeQty = .insufficientLiquidity ↔
      (simulateMarketTrade book (determineKrakenSide opportunity.tradeDirection)
          tradeQty).executed = false) := by
  constructor
  · simp only [simulateMarketTrade]
    split_ifs with h
    · exact iff_of_true rfl rfl
    · exact iff_of_false (by simp) h
  · simp only [handleValidOpportunityDetected]
    split_ifs with h1 h2 <;> simp_all

/-- Counterexample to C4 as stated: a buy of 1500 against a book whose
only ask level holds 1000 volume is *not* rejected — the simulation
reports `executed = true` with a partial fill of 1000 < 1500, and the
planner submits the entry order for the full 1500 at the average fill
price. -/
theorem partial_fill_not_rejected :
    (simulateMarketTrade c4Book .buy 1500).executed = true
    ∧ (simulateMarketTrade c4Book .buy 1500).filledQty = 1000
    ∧ ¬ ((1500 : ℚ) ≤ 1000)
    ∧ handleValidOpportunityDetected c4Opportunity c4Book 1500 = .submitted c4Order := by
  have hsim : simulateMarketTrade c4Book .buy 1500 =
      { executed := true, side := .buy, avgPrice := 1, filledQty := 1000,
        totalCost := 1000, slippagePct := 0 } := by
    norm_num [simulateMarketTrade, walkBook, c4Book, min_def]
  refine ⟨by rw [hsim], by rw [hsim], by norm_num, ?_⟩
  norm_num [handleValidOpportunityDetected, determineKrakenSide, c4Opportunity, c4Order, hsim,
    TRADE_CONFIG_CONSTANTS.MAX_SLIPPAGE_PCT]

/-- Claim C2 (amended): the current detector computes the estimated
duration as `quantity × interval × 6` — for streaming metadata whose
`quantity` and `interval` fields parse to numbers `q` and `i`, the
result is exactly `q * i * 6` seconds.  (The older
`detector.service.ts` variant used `count × interval × 6`; with the
`'1'` defaults the two agree only when count = quantity.) -/
theorem estimatedDurationSeconds_spec (m : StreamingSwapMeta) (q i : ℚ)
    (hq : parseIntJS m.quantity = .fin q) (hi : parseIntJS m.interval = .fin i) :
    estimatedDurationSeconds (some m) = .fin (q * i * 6) := by
  unfold estimatedDurationSeconds
  simp only [Option.map_some', Option.getD_some, hq, hi]
  rfl

/-- Witness for C2: metadata with quantity "5" and interval "1" yields a
duration of `5 * 1 * 6 = 30` seconds. -/
theorem estimatedDurationSeconds_spec_witness :
    parseIntJS c2Meta.quantity = .fin 5 ∧ parseIntJS c2Meta.interval = .fin 1 ∧
      estimatedDurationSeconds (some c2Meta) = .fin (5 * 1 * 6) := by
  have hq : parseIntJS c2Meta.quantity = .fin 5 := by
    have hd : digitsToNat? "5".data = some 5 := by decide
    simp [parseIntJS, c2Meta, hd]
  have hi : parseIntJS c2Meta.interval = .fin 1 := by
    have hd : digitsToNat? "1".data = some 1 := by decide
    simp [parseIntJS, c2Meta, hd]
  exact ⟨hq, hi, estimatedDurationSeconds_spec c2Meta 5 1 hq hi⟩

/-- Counterexample to C2 as stated: for metadata with count "10",
interval "1", quantity "5" — all parsing to positive integers — the
computed duration is 30 seconds (`quantity × interval × 6`), not the
claimed `count × interval × 6 = 60`. -/
theorem duration_uses_quantity_not_count :
    parseIntJS c2Meta.count = .fin 10 ∧ parseIntJS c2Meta.interval = .fin 1
    ∧ parseIntJS c2Meta.quantity = .fin 5
    ∧ estimatedDurationSeconds (some c2Meta) = .fin 30
    ∧ estimatedDurationSeconds (some c2Meta) ≠ .fin (10 * 1 * 6) := by
  have hc : parseIntJS c2Meta.count = .fin 10 := by
    have hd : digitsToNat? "10".data = some 10 := by decide
    simp [parseIntJS, c2Meta, hd]
  have hi : parseIntJS c2Meta.interval = .fin 1 := by
    have hd : digitsToNat? "1".data = some 1 := by decide
    simp [parseIntJS, c2Meta, hd]
  have hq : parseIntJS c2Meta.quantity = .fin 5 := by
    have hd : digitsToNat? "5".data = some 5 := by decide
    simp [parseIntJS, c2Meta, hd]
  have hdur : estimatedDurationSeconds (some c2Meta) = .fin 30 := by
    unfold estimatedDurationSeconds
    simp only [Option.map_some', Option.getD_some, hq, hi]
    show JSNum.fin ((5 : ℚ) * 1 * 6) = JSNum.fin 30
    norm_num
  refine ⟨hc, hi, hq, hdur, ?_⟩
  rw [hdur]
  intro hcontra
  simp only [JSNum.fin.injEq] at hcontra
  norm_num at hcontra

/-- Claim C3 (amended): classification rejects — nothing is emitted
downstream — whenever the action's type is not "swap" or the streaming
flag is absent or false.  (A missing streaming-metadata structure alone
no longer causes rejection in the current code; see the
counterexample.) -/
theorem handleActionDetected_rejects (action : MidgardAction)
    (h : action.type ≠ "swap" ∨ streamingFlag action = false) :
    handleActionDetected action = false := by
  unfold handleActionDetected
  have hiss : isStreamSwap action = false := by
    unfold isStreamSwap
    rcases h with h | h
    · simp [beq_eq_false_iff_ne.mpr h]
    · simp [h]
  simp [hiss]

/-- Witness for C3: a non-swap action is rejected with no emission. -/
theorem handleActionDetected_rejects_witness :
    handleActionDetected c3NonSwap = false :=
  handleActionDetected_rejects c3NonSwap (Or.inl (by decide))

/-- Counterexample to C3 as stated: an action whose type is "swap" and
whose streaming flag is true but whose `streamingSwapMeta` structure is
missing is still classified as a stream swap, and the detector emits a
`streamswap.detected` opportunity for it (after warning, using the `'1'`
defaults). -/
theorem missing_meta_still_emits :
    isStreamSwap c3Action = true
    ∧ ((c3Action.metadata.bind (·.swap)).bind (·.streamingSwapMeta)) = none
    ∧ handleActionDetected c3Action = true := by
  refine ⟨by decide, by decide, by decide⟩

/-- Claim C9 (amended): the authoritative sizing path
`calculateSizeFromThornodeTx` never returns a non-finite value — it
degrades to 0 whenever an amount or price is non-finite or non-positive
and re-guards the product.  (The metadata fallback
`getStreamSwapSizeInUSD` has no such guard; see the counterexample.) -/
theorem calculateSizeFromThornodeTx_finite (txStatus : ThornodeTxStatus)
    (assetPriceUSD : JSNum) :
    (calculateSizeFromThornodeTx txStatus assetPriceUSD).isFinite = true := by
  obtain ⟨t⟩ := txStatus
  cases t with
  | none => rfl
  | some tx =>
    obtain ⟨coins⟩ := tx
    cases coins with
    | nil => rfl
    | cons coin rest =>
      simp only [calculateSizeFromThornodeTx]
      split_ifs with h1 h2
      · rfl
      · exact h2
      · rfl

/-- Counterexample to C9 as stated: the metadata fallback
`getStreamSwapSizeInUSD` propagates `NaN` instead of degrading to 0 — on
an action whose deposited-coin amount is the non-numeric string "abc"
(parsing to `NaN`) with input price "1", it returns `NaN`, a non-finite
value. -/
theorem fallback_size_returns_nan :
    getStreamSwapSizeInUSD c9Action = JSNum.nan
    ∧ (getStreamSwapSizeInUSD c9Action).isFinite = false := by
  have h : getStreamSwapSizeInUSD c9Action = JSNum.nan := by decide
  exact ⟨h, by rw [h]; rfl⟩

/-- The output-scan loop of the source equals the spec's wording of
fallback 1 ("first non-empty, non-affiliate-fee output coin") when an
input coin exists. -/
theorem findOutCoin_eq_findSome? (outs : List MidgardTx) (ic : MidgardCoin) :
    findOutCoin outs (some ic) = outs.findSome? (fun tx =>
      tx.coins.head?.bind (fun c => if c.asset != ic.asset then some c else none)) := by
  induction outs with
  | nil => rfl
  | cons tx rest ih =>
    cases htc : tx.coins with
    | nil => simp [findOutCoin, List.findSome?_cons, htc, ih]
    | cons c cs =>
      cases hb : (c.asset != ic.asset) with
      | true =>
        have hb' : c.asset ≠ ic.asset := by simpa using hb
        simp [findOutCoin, List.findSome?_cons, htc, hb, hb', ih]
      | false =>
        have hb' : c.asset = ic.asset := by simpa using hb
        simp [findOutCoin, List.findSome?_cons, htc, hb, hb', ih]

/-- Claim C8: direction inference tries the three fallbacks in order
with first success winning — `getSwapDirection` equals the chain
in/out-coins, then pool pair, then streaming-metadata coins (each
formulated as the spec words it), and yields `none` exactly when all
three fail; in particular, for every action with empty output transfers
and a pool list of length at least 2, the result is exactly
`(pools[0], pools[1])`. -/
theorem getSwapDirection_fallback_chain (action : MidgardAction) :
    getSwapDirection action =
      ((inOutDirection action).orElse (fun _ =>
        (poolsDirection action).orElse (fun _ => metaDirection action)))
    ∧ (action.out = [] → ∀ p0 p1 rest, action.pools = p0 :: p1 :: rest →
        getSwapDirection action = some ⟨p0, p1⟩) := by
  have hchain : getSwapDirection action =
      ((inOutDirection action).orElse (fun _ =>
        (poolsDirection action).orElse (fun _ => metaDirection action))) := by
    obtain ⟨ty, st, ins, outs, md, pools, dt, ht⟩ := action
    simp only [getSwapDirection, inOutDirection, poolsDirection, metaDirection]
    cases ins with
    | nil =>
      cases pools with
      | nil => simp
      | cons p ps => cases ps <;> simp
    | cons t ins' =>
      cases outs with
      | nil =>
        cases pools with
        | nil => simp
        | cons p ps => cases ps <;> simp
      | cons o outs' =>
        simp only [List.head?_cons, Option.some_bind, List.length_cons]
        cases htc : t.coins with
        | nil =>
          simp only [htc, List.head?_nil]
          cases hfo : findOutCoin (o :: outs') none with
          | none =>
            cases pools with
            | nil => simp [hfo]
            | cons p ps => cases ps <;> simp [hfo]
          | some oc =>
            cases pools with
            | nil => simp [hfo]
            | cons p ps => cases ps <;> simp [hfo]
        | cons c cs =>
          simp only [htc, List.head?_cons, Option.some_bind]
          rw [findOutCoin_eq_findSome? (o :: outs') c]
          have hcond : (decide (ins'.length + 1 > 0) && decide (outs'.length + 1 > 0)) = true := by
            simp
          rw [if_pos hcond]
          generalize (List.findSome? (fun tx =>
            tx.coins.head?.bind fun cc =>
              if (cc.asset != c.asset) = true then some cc else none) (o :: outs')) = fo
          cases fo with
          | some oc => rfl
          | none =>
            cases pools with
            | nil => rfl
            | cons p ps => cases ps <;> rfl
  refine ⟨hchain, ?_⟩
  intro hout p0 p1 rest hpools
  rw [hchain]
  have hio : inOutDirection action = none := by
    unfold inOutDirection
    rw [hout]
    cases hic : action.inTxs.head?.bind (fun tx => tx.coins.head?) <;> simp [hic]
  simp [hio, poolsDirection, hpools]

/-- Witness for C8: an action with empty output transfers and pool list
`["THOR.RUNE", "THOR.RUJI"]` resolves to exactly that pool pair. -/
theorem getSwapDirection_fallback_chain_witness :
    getSwapDirection c8Action = some ⟨"THOR.RUNE", "THOR.RUJI"⟩ :=
  (getSwapDirection_fallback_chain c8Action).2 rfl "THOR.RUNE" "THOR.RUJI" [] rfl

/-- Invariant of the poll loop: starting from any carried state whose
emitted ids are all recorded and duplicate-free, after processing any
action list the emissions remain duplicate-free, every emitted id is
recorded, the recorded set only grows, and an id recorded but not yet
emitted is never emitted. -/
theorem foldl_pollStep_inv (l : List PollAction) (acc : PollerState × List Nat)
    (hsub : ∀ e ∈ acc.2, e ∈ acc.1.processedTxIds) (hnd : acc.2.Nodup) :
    ((l.foldl pollStep acc).2.Nodup)
    ∧ (∀ e ∈ (l.foldl pollStep acc).2, e ∈ (l.foldl pollStep acc).1.processedTxIds)
    ∧ (∀ x ∈ acc.1.processedTxIds, x ∈ (l.foldl pollStep acc).1.processedTxIds)
    ∧ (∀ x ∈ acc.1.processedTxIds, x ∉ acc.2 → x ∉ (l.foldl pollStep acc).2) := by
  induction l generalizing acc with
  | nil => exact ⟨hnd, hsub, fun x hx => hx, fun x _ hx2 => hx2⟩
  | cons a rest ih =>
    rw [List.foldl_cons]
    cases ha : a.txId with
    | none =>
      have hstep : pollStep acc a = acc := by
        unfold pollStep
        rw [ha]
      rw [hstep]
      exact ih acc hsub hnd
    | some t =>
      by_cases hmem : t ∈ acc.1.processedTxIds
      · have hstep : pollStep acc a = acc := by
          unfold pollStep
          rw [ha]
          exact if_pos hmem
        rw [hstep]
        exact ih acc hsub hnd
      · have hstep : pollStep acc a =
            (⟨acc.1.processedTxIds ++ [t], max acc.1.lastProcessedHeight a.height⟩,
              acc.2 ++ [t]) := by
          unfold pollStep
          rw [ha]
          exact if_neg hmem
        rw [hstep]
        have k1 : ∀ e ∈ acc.2 ++ [t],
            e ∈ (⟨acc.1.processedTxIds ++ [t],
              max acc.1.lastProcessedHeight a.height⟩ : PollerState).processedTxIds := by
          intro e he
          rcases List.mem_append.mp he with he | he
          · exact List.mem_append.mpr (Or.inl (hsub e he))
          · exact List.mem_append.mpr (Or.inr he)
        have k2 : (acc.2 ++ [t]).Nodup := by
          refine List.Nodup.append hnd (List.nodup_singleton t) ?_
          intro x hx hx'
          rcases List.mem_singleton.mp hx' with rfl
          exact hmem (hsub x hx)
        have ihres := ih (⟨acc.1.processedTxIds ++ [t],
          max acc.1.lastProcessedHeight a.height⟩, acc.2 ++ [t]) k1 k2
        refine ⟨ihres.1, ihres.2.1, ?_, ?_⟩
        · intro x hx
          exact ihres.2.2.1 x (List.mem_append.mpr (Or.inl hx))
        · intro x hx hx2
          refine ihres.2.2.2 x (List.mem_append.mpr (Or.inl hx)) ?_
          intro hcontra
          rcases List.mem_append.mp hcontra with hc | hc
          · exact hx2 hc
          · rcases List.mem_singleton.mp hc with rfl
            exact hmem hx

/-- Claim C1 (amended): within one poll batch each tx id is emitted as
`action.detected` at most once, and a poll never emits an id that is
still in the dedup window at the start of the poll.  (The window is
trimmed to the most recent 1000 ids, so an id evicted by 1000+ newer
distinct ids can be re-emitted by a later poll; see the
counterexample.) -/
theorem poll_emissions_once (s : PollerState) (actions : List PollAction) :
    (poll s actions).2.Nodup
    ∧ ∀ id ∈ s.processedTxIds, id ∉ (poll s actions).2 := by
  have h := foldl_pollStep_inv
    (actions.mergeSort (fun a b => a.height ≤ b.height)) (s, [])
    (by intro e he; cases he) List.nodup_nil
  exact ⟨h.1, fun id hid => h.2.2.2 id hid (by intro hc; cases hc)⟩

/-- Witness for C1: a poll whose window already holds id 7 emits a
duplicate-free batch that does not contain 7 again. -/
theorem poll_emissions_once_witness :
    (poll ⟨[7], 0⟩ [⟨1, some 7⟩, ⟨1, some 8⟩]).2.Nodup
    ∧ (7 : Nat) ∉ (poll ⟨[7], 0⟩ [⟨1, some 7⟩, ⟨1, some 8⟩]).2 :=
  ⟨(poll_emissions_once ⟨[7], 0⟩ [⟨1, some 7⟩, ⟨1, some 8⟩]).1,
    (poll_emissions_once ⟨[7], 0⟩ [⟨1, some 7⟩, ⟨1, some 8⟩]).2 7 (by simp)⟩

/-- Processing a batch of distinct, fresh tx ids appends them to the
dedup window in order and emits all of them in order. -/
theorem foldl_pollStep_fresh (ids : List Nat) (h : Nat) (s : PollerState) (em : List Nat)
    (hnd : ids.Nodup) (hfresh : ∀ i ∈ ids, i ∉ s.processedTxIds) :
    ((batchOf ids h).foldl pollStep (s, em)).1.processedTxIds = s.processedTxIds ++ ids
    ∧ ((batchOf ids h).foldl pollStep (s, em)).2 = em ++ ids := by
  induction ids generalizing s em with
  | nil => simp [batchOf]
  | cons i ids ih =>
    have hi : i ∉ s.processedTxIds := hfresh i (List.mem_cons_self i ids)
    have hnd' : ids.Nodup := (List.nodup_cons.mp hnd).2
    have hine : i ∉ ids := (List.nodup_cons.mp hnd).1
    have hexpand : batchOf (i :: ids) h = ⟨h, some i⟩ :: batchOf ids h := rfl
    rw [hexpand, List.foldl_cons]
    have hstep : pollStep (s, em) ⟨h, some i⟩ =
        (⟨s.processedTxIds ++ [i], max s.lastProcessedHeight h⟩, em ++ [i]) := by
      unfold pollStep
      exact if_neg hi
    rw [hstep]
    have hfresh' : ∀ j ∈ ids,
        j ∉ (⟨s.processedTxIds ++ [i],
          max s.lastProcessedHeight h⟩ : PollerState).processedTxIds := by
      intro j hj hcontra
      rcases List.mem_append.mp hcontra with hc | hc
      · exact hfresh j (List.mem_cons_of_mem i hj) hc
      · rcases List.mem_singleton.mp hc with rfl
        exact hine hj
    obtain ⟨h1, h2⟩ := ih (⟨s.processedTxIds ++ [i], max s.lastProcessedHeight h⟩)
      (em ++ [i]) hnd' hfresh'
    constructor
    · rw [h1]
      simp
    · rw [h2]
      simp

/-- A constant-height batch is already sorted, so the poll's stable sort
leaves it unchanged. -/
theorem mergeSort_const_height (ids : List Nat) (h : Nat) :
    (batchOf ids h).mergeSort (fun a b => a.height ≤ b.height) = batchOf ids h := by
  apply List.mergeSort_of_sorted
  unfold batchOf
  refine List.pairwise_map.mpr ?_
  induction ids with
  | nil => exact List.Pairwise.nil
  | cons i ids ih => exact List.Pairwise.cons (fun j _ => by simp) ih

/-- Overfull dedup windows are trimmed to the most recent entries. -/
theorem trim_range_overflow (n : Nat) (hn : maxProcessedTxIds < n) :
    trimProcessed (List.range n) = (List.range n).drop (n - maxProcessedTxIds) := by
  unfold trimProcessed
  rw [List.length_range, if_pos hn]

/-- Dropping the first element of `range (n+1)` removes 0. -/
theorem zero_not_mem_drop_one_range (n : Nat) :
    (0 : Nat) ∉ (List.range (n + 1)).drop 1 := by
  rw [List.range_succ_eq_map]
  simp

/-- A poll over a constant-height batch of distinct fresh ids emits all
of them and records them (then trims the window). -/
theorem poll_batchOf (ids : List Nat) (h : Nat) (s : PollerState)
    (hnd : ids.Nodup) (hfresh : ∀ i ∈ ids, i ∉ s.processedTxIds) :
    (poll s (batchOf ids h)).1.processedTxIds = trimProcessed (s.processedTxIds ++ ids)
    ∧ (poll s (batchOf ids h)).2 = ids := by
  unfold poll
  rw [mergeSort_const_height ids h]
  obtain ⟨h1, h2⟩ := foldl_pollStep_fresh ids h s [] hnd hfresh
  constructor
  · show trimProcessed (((batchOf ids h).foldl pollStep (s, [])).1.processedTxIds) = _
    rw [h1]
  · show ((batchOf ids h).foldl pollStep (s, [])).2 = ids
    rw [h2]
    simp

/-- After one batch of 1001 distinct ids, the poller has emitted all of
them but its trimmed window has evicted id 0. -/
theorem poll_c1Batch1 :
    (poll c1State0 c1Batch1).1.processedTxIds = (List.range 1001).drop 1
    ∧ (poll c1State0 c1Batch1).2 = List.range 1001 := by
  have h := poll_batchOf (List.range 1001) 1 c1State0 (List.nodup_range 1001)
    (by intro i _ hc; simp [c1State0] at hc)
  have e1 : (poll c1State0 c1Batch1).1.processedTxIds =
      trimProcessed ([] ++ List.range 1001) := h.1
  have e2 : (poll c1State0 c1Batch1).2 = List.range 1001 := h.2
  refine ⟨?_, e2⟩
  rw [e1, List.nil_append, trim_range_overflow 1001 (by norm_num [maxProcessedTxIds])]
  have harith : 1001 - maxProcessedTxIds = 1 := by norm_num [maxProcessedTxIds]
  rw [harith]

/-- Counterexample to C1 as stated: tx id 0 is emitted as
`action.detected` twice across two poll cycles — once in a batch of 1001
distinct ids (which overflows the 1000-entry dedup window and evicts 0),
and again when a later batch returns the same id 0. -/
theorem poller_reemits_after_eviction :
    (0 : Nat) ∈ (poll c1State0 c1Batch1).2
    ∧ (0 : Nat) ∈ (poll (poll c1State0 c1Batch1).1 c1Batch2).2 := by
  obtain ⟨hp, he⟩ := poll_c1Batch1
  have h0 : (0 : Nat) ∉ (poll c1State0 c1Batch1).1.processedTxIds := by
    rw [hp]
    exact zero_not_mem_drop_one_range 1000
  refine ⟨?_, ?_⟩
  · rw [he]
    exact List.mem_range.mpr (by norm_num)
  · have h2 := poll_batchOf [0] 2 (poll c1State0 c1Batch1).1 (List.nodup_singleton 0)
      (by intro i hi; rcases List.mem_singleton.mp hi with rfl; exact h0)
    have e2 : (poll (poll c1State0 c1Batch1).1 c1Batch2).2 = [0] := h2.2
    rw [e2]
    simp
